import Mathlib

/-!
Verification of the Account-Abstraction Operation Pipeline of the
`defi_in_oneclick` repository.

The TypeScript sources are shallowly embedded: byte strings become
`List Nat` (each entry a byte value), hex strings stay `String`, machine
integers become `Nat` with explicit `% 2 ^ w` where overflow matters, and
fallible code returns `Except`.  External platform primitives that the
repository merely calls (the network, `JSON.parse`) enter as explicit
oracle parameters; algorithmic primitives (`keccak256`, base64 `atob`,
UTF-8 encoding, ABI encoding) are implemented executably below.
-/

set_option maxRecDepth 1000000

namespace OneClick

/-! ## Bytes and words -/

/-- Big-endian byte encoding of `n % 2 ^ (8 * w)` into `w` bytes. -/
def beBytes (w n : Nat) : List Nat :=
  (List.range w).map (fun i => (n >>> (8 * (w - 1 - i))) % 256)

/-- A 32-byte big-endian word, as used for every static ABI slot. -/
def word32 (n : Nat) : List Nat := beBytes 32 n

/-- Right-pad a byte list with zeros up to a multiple of 32 bytes. -/
def padRight32 (bs : List Nat) : List Nat :=
  bs ++ List.replicate ((32 - bs.length % 32) % 32) 0

/-! ## Keccak-256 (the hash used by viem's `keccak256`) -/

/-- Rotate a 64-bit lane left by `k` bits. -/
def rotl64 (n k : Nat) : Nat :=
  ((n <<< (k % 64)) % 2 ^ 64) ||| (n >>> (64 - k % 64))

/-- One step of the degree-8 LFSR `x^8 + x^6 + x^5 + x^4 + 1` that
generates the Keccak round constants. -/
def lfsrStep (r : Nat) : Nat := ((r <<< 1) ^^^ ((r >>> 7) * 0x71)) % 256

/-- The LFSR state after `t` steps from 1. -/
def lfsrIter : Nat → Nat
  | 0 => 1
  | t + 1 => lfsrStep (lfsrIter t)

/-- Bit `rc(t)` of the Keccak round-constant generator. -/
def rcBit (t : Nat) : Nat := lfsrIter t % 2

/-- The round constant of round `ir`: bit `rc(j + 7 ir)` sits at
position `2^j - 1` for `j < 7`. -/
def roundConst (ir : Nat) : Nat :=
  (List.range 7).foldl (fun acc j => acc + rcBit (j + 7 * ir) * 2 ^ (2 ^ j - 1)) 0

/-- The 24 Keccak-f[1600] round constants. -/
def keccakRC : List Nat := (List.range 24).map roundConst

/-- Rho rotation offsets, indexed by lane `x + 5 * y`: starting from
lane (1,0), lane `t` of the pi walk rotates by the triangular number
`(t+1)(t+2)/2 mod 64`. -/
def keccakRho : List Nat :=
  ((List.range 24).foldl
    (fun (st : Nat × Nat × List Nat) t =>
      (st.2.1, (2 * st.1 + 3 * st.2.1) % 5,
        st.2.2.set (st.1 + 5 * st.2.1) ((t + 1) * (t + 2) / 2 % 64)))
    (1, 0, List.replicate 25 0)).2.2

/-- Theta step on a 25-lane state. -/
def keccakTheta (st : List Nat) : List Nat :=
  let c := (List.range 5).map (fun x =>
    st.getD x 0 ^^^ st.getD (x + 5) 0 ^^^ st.getD (x + 10) 0 ^^^
      st.getD (x + 15) 0 ^^^ st.getD (x + 20) 0)
  let d := (List.range 5).map (fun x =>
    c.getD ((x + 4) % 5) 0 ^^^ rotl64 (c.getD ((x + 1) % 5) 0) 1)
  (List.range 25).map (fun i => st.getD i 0 ^^^ d.getD (i % 5) 0)

/-- Combined rho and pi steps. -/
def keccakRhoPi (st : List Nat) : List Nat :=
  (List.range 25).map (fun j =>
    let bigX := j % 5
    let bigY := j / 5
    let x := (3 * (bigY + 2 * bigX)) % 5
    let y := bigX
    rotl64 (st.getD (x + 5 * y) 0) (keccakRho.getD (x + 5 * y) 0))

/-- Chi step. -/
def keccakChi (st : List Nat) : List Nat :=
  (List.range 25).map (fun j =>
    let x := j % 5
    let y := j / 5
    st.getD j 0 ^^^
      (((st.getD ((x + 1) % 5 + 5 * y) 0) ^^^ (2 ^ 64 - 1)) &&&
        st.getD ((x + 2) % 5 + 5 * y) 0))

/-- One Keccak round with round constant `rc`. -/
def keccakRound (st : List Nat) (rc : Nat) : List Nat :=
  let st := keccakChi (keccakRhoPi (keccakTheta st))
  (st.getD 0 0 ^^^ rc) :: st.drop 1

/-- The full Keccak-f[1600] permutation. -/
def keccakF (st : List Nat) : List Nat := keccakRC.foldl keccakRound st

/-- Interpret 8 bytes as a little-endian 64-bit lane. -/
def leLane (bs : List Nat) : Nat := bs.foldr (fun b acc => b + 256 * acc) 0

/-- Little-endian bytes of a 64-bit lane. -/
def laneBytes (n : Nat) : List Nat := (List.range 8).map (fun k => (n >>> (8 * k)) % 256)

/-- Keccak padding (pad10*1 with domain byte 0x01), rate 136 bytes. -/
def keccakPad (msg : List Nat) : List Nat :=
  let r := 136 - msg.length % 136
  if r = 1 then msg ++ [0x81]
  else msg ++ [0x01] ++ List.replicate (r - 2) 0 ++ [0x80]

/-- Absorb one 136-byte block into the state and permute. -/
def absorbBlock (st block : List Nat) : List Nat :=
  keccakF ((List.range 25).map (fun i =>
    if i < 17 then st.getD i 0 ^^^ leLane ((block.drop (8 * i)).take 8) else st.getD i 0))

/-- Split a list into chunks of `n` (fuel-driven, `n > 0` in every use). -/
def chunksGo (n : Nat) : Nat → List Nat → List (List Nat)
  | 0, _ => []
  | _, [] => []
  | fuel + 1, l => l.take n :: chunksGo n fuel (l.drop n)

def chunks (n : Nat) (l : List Nat) : List (List Nat) := chunksGo n (l.length + 1) l

/-- Keccak-256 of a byte list, producing 32 bytes. -/
def keccak256 (msg : List Nat) : List Nat :=
  let st := (chunks 136 (keccakPad msg)).foldl absorbBlock (List.replicate 25 0)
  ((st.take 4).map laneBytes).flatten

/-! ## ABI encoding (the fragment viem's `encodeAbiParameters` /
`encodePacked` use in this repository: static values only at top level) -/

/-- A static ABI value: an address, a uint256, or a bytes32 word. -/
inductive AbiVal
  | addr (a : Nat)
  | uint (n : Nat)
  | b32 (bs : List Nat)
deriving DecidableEq, Repr

/-- The 32-byte head slot of a static ABI value
(`encodeAbiParameters` layout). -/
def abiHead : AbiVal → List Nat
  | .addr a => word32 (a % 2 ^ 160)
  | .uint n => word32 n
  | .b32 bs => bs

/-- `encodeAbiParameters` for a tuple of static values. -/
def abiEncodeStatic (vs : List AbiVal) : List Nat := (vs.map abiHead).flatten

/-- One value under `encodePacked`: addresses take 20 bytes, uint256 32,
bytes32 its raw bytes. -/
def packedVal : AbiVal → List Nat
  | .addr a => beBytes 20 a
  | .uint n => beBytes 32 n
  | .b32 bs => bs

/-- viem's `encodePacked`. -/
def encodePacked (vs : List AbiVal) : List Nat := (vs.map packedVal).flatten

/-! ## UserOperation and `getUserOpHash`
(source: `lib/gasless` — `getUserOpHash`, lines 100-129) -/

/-- The ERC-4337 v0.6 user operation of `lib/smart-account/types.ts`;
addresses and uint256 fields are `Nat`, byte strings are `List Nat`. -/
structure UserOperation where
  sender : Nat
  nonce : Nat
  initCode : List Nat
  callData : List Nat
  callGasLimit : Nat
  verificationGasLimit : Nat
  preVerificationGas : Nat
  maxFeePerGas : Nat
  maxPriorityFeePerGas : Nat
  paymasterAndData : List Nat
  signature : List Nat
deriving DecidableEq, Repr

/-- The inner `encodeAbiParameters` of `getUserOpHash`: the ten-slot
static tuple `(address, uint256, bytes32, bytes32, uint256, uint256,
uint256, uint256, uint256, bytes32)`. -/
def packUserOp (op : UserOperation) : List Nat :=
  abiEncodeStatic
    [.addr op.sender,
     .uint op.nonce,
     .b32 (keccak256 op.initCode),
     .b32 (keccak256 op.callData),
     .uint op.callGasLimit,
     .uint op.verificationGasLimit,
     .uint op.preVerificationGas,
     .uint op.maxFeePerGas,
     .uint op.maxPriorityFeePerGas,
     .b32 (keccak256 op.paymasterAndData)]

/-- `getUserOpHash(userOp, entryPoint, chainId)`: keccak256 of the packed
triple `(keccak256(packUserOp), entryPoint, chainId)`. -/
def getUserOpHash (op : UserOperation) (entryPoint chainId : Nat) : List Nat :=
  keccak256 (encodePacked
    [.b32 (keccak256 (packUserOp op)), .addr entryPoint, .uint chainId])

/-! ## Strings, hex and base64 -/

/-- UTF-8 encoding of one Unicode code point. -/
def utf8Char (c : Nat) : List Nat :=
  if c < 0x80 then [c]
  else if c < 0x800 then [0xC0 + c / 64, 0x80 + c % 64]
  else if c < 0x10000 then [0xE0 + c / 4096, 0x80 + (c / 64) % 64, 0x80 + c % 64]
  else [0xF0 + c / 262144, 0x80 + (c / 4096) % 64, 0x80 + (c / 64) % 64, 0x80 + c % 64]

/-- UTF-8 bytes of a string (viem's `toHex` applied to a string hashes
these bytes). -/
def strBytes (s : String) : List Nat := (s.data.map (fun c => utf8Char c.toNat)).flatten

/-- Lowercase hex digit for a value below 16. -/
def hexDigit (n : Nat) : Char :=
  if n < 10 then Char.ofNat (48 + n) else Char.ofNat (87 + n)

/-- Hex digits, most significant first; fuel-driven so that it reduces
definitionally (the fuel in `natToHexChars` always suffices). -/
def natToHexCharsGo : Nat → Nat → List Char
  | 0, _ => []
  | fuel + 1, n =>
    if n < 16 then [hexDigit n] else natToHexCharsGo fuel (n / 16) ++ [hexDigit (n % 16)]

/-- Hex digits of `n`, most significant first (JavaScript
`n.toString(16)`; `0` gives `['0']`). -/
def natToHexChars (n : Nat) : List Char := natToHexCharsGo (n + 1) n

/-- JavaScript `n.toString(16)` for natural numbers. -/
def natToHexStr (n : Nat) : String := String.mk (natToHexChars n)

/-- JavaScript `b.toString(16).padStart(2, '0')`, as characters (note:
`padStart` never truncates, so a value above 255 keeps all its digits). -/
def byteHexChars (b : Nat) : List Char :=
  if (natToHexChars b).length < 2 then '0' :: natToHexChars b else natToHexChars b

/-- JavaScript `b.toString(16).padStart(2, '0')` as used on key bytes. -/
def byteToHexJS (b : Nat) : String := String.mk (byteHexChars b)

/-- `bytes.map(b => b.toString(16).padStart(2, '0')).join('')`, as
characters. -/
def hexCharsJS (bs : List Nat) : List Char := (bs.map byteHexChars).flatten

/-- `bytes.map(b => b.toString(16).padStart(2, '0')).join('')`. -/
def hexJoinJS (bs : List Nat) : String := String.mk (hexCharsJS bs)

/-- A byte list rendered as a 0x-prefixed lowercase hex string (viem's
`keccak256` / `toHex` output format). -/
def bytesToHex0x (bs : List Nat) : String := String.mk ('0' :: 'x' :: hexCharsJS bs)

/-- The first list starts with the second. -/
def startsWithL [BEq α] : List α → List α → Bool
  | _, [] => true
  | [], _ :: _ => false
  | a :: as, b :: bs => a == b && startsWithL as bs

/-- Value of a hex digit character, if any. -/
def hexDigitVal : Char → Option Nat := fun c =>
  let n := c.toNat
  if 48 ≤ n ∧ n ≤ 57 then some (n - 48)
  else if 97 ≤ n ∧ n ≤ 102 then some (n - 87)
  else if 65 ≤ n ∧ n ≤ 70 then some (n - 55)
  else none

/-- Parse pairs of hex digits into bytes; fails on odd length or on a
non-hex character (the failure viem's encoders raise on a bad `Hex`). -/
def hexPairs : List Char → Option (List Nat)
  | [] => some []
  | [_] => none
  | c1 :: c2 :: rest =>
    match hexDigitVal c1, hexDigitVal c2, hexPairs rest with
    | some h, some l, some bs => some ((16 * h + l) :: bs)
    | _, _, _ => none

/-- Parse a `0x`-prefixed hex string into bytes. -/
def hexToBytes (s : String) : Option (List Nat) :=
  match s.data with
  | '0' :: 'x' :: rest => hexPairs rest
  | _ => none

/-- Value of a base64 alphabet character. -/
def b64Val : Char → Option Nat := fun c =>
  let n := c.toNat
  if 65 ≤ n ∧ n ≤ 90 then some (n - 65)
  else if 97 ≤ n ∧ n ≤ 122 then some (n - 71)
  else if 48 ≤ n ∧ n ≤ 57 then some (n + 4)
  else if c = '+' then some 62
  else if c = '/' then some 63
  else none

/-- Decode a run of base64 values into bytes (4 values per 3 bytes,
with 2- and 3-value tails). -/
def b64Decode : List Nat → Option (List Nat)
  | [] => some []
  | [_] => none
  | [a, b] => some [(a * 4 + b / 16) % 256]
  | [a, b, c] => some [(a * 4 + b / 16) % 256, (b % 16 * 16 + c / 4) % 256]
  | a :: b :: c :: d :: rest =>
    (b64Decode rest).map (fun bs =>
      (a * 4 + b / 16) % 256 :: (b % 16 * 16 + c / 4) % 256 :: (c % 4 * 64 + d) % 256 :: bs)

/-- The browser's `atob`: strips up to two `=` padding characters, fails
on an invalid character or a leftover length of 1, and returns the
decoded bytes. -/
def atob (s : String) : Option (List Nat) :=
  let chars := if startsWithL s.data.reverse ['=', '='] then s.data.dropLast.dropLast
    else if startsWithL s.data.reverse ['='] then s.data.dropLast
    else s.data
  match chars.mapM b64Val with
  | none => none
  | some vals => b64Decode vals

/-! ## Salt derivation and the key-format fallbacks
(source: `lib/smart-account/factory.ts`, `calculateSalt`, lines 103-146) -/

/-- The hex string produced from a non-empty public key that does not
start with `0x`: base64-decode it; a decoded JSON object yields the
joined `x`/`y` byte arrays; a plain decode yields its hex; any decode
failure silently falls back to `keccak256(toHex(publicKey))`.
`pj` is an oracle for the platform's `JSON.parse` (with the code's
`keyData.x || []` / `keyData.y || []` defaults applied); `none` models a
parse exception. -/
def decodedKeyHex (pj : List Nat → Option (List Nat × List Nat)) (pk : String) : String :=
  match atob pk with
  | none => bytesToHex0x (keccak256 (strBytes pk))
  | some decoded =>
    if decoded.headD 0 = 123 then
      match pj decoded with
      | some (x, y) => "0x" ++ hexJoinJS x ++ hexJoinJS y
      | none => bytesToHex0x (keccak256 (strBytes pk))
    else "0x" ++ hexJoinJS decoded

/-- `encodeAbiParameters('string, bytes, uint256', [email, keyBytes,
nonce])`: two dynamic heads, a static head, then the two tails. -/
def abiEncStringBytesUint (sBytes bBytes : List Nat) (n : Nat) : List Nat :=
  word32 96 ++ word32 (96 + 32 + (padRight32 sBytes).length) ++ word32 n ++
    word32 sBytes.length ++ padRight32 sBytes ++
    word32 bBytes.length ++ padRight32 bBytes

/-- `calculateSalt(email, publicKey, nonce?)`.  An empty public key is
replaced by `keccak256(toHex(email + '_fallback_key'))`; a `0x` string
passes through; anything else goes through `decodedKeyHex`.  The only
failure is viem's hex validation inside `encodeAbiParameters` (outside
every `try` in the source). -/
def calculateSalt (pj : List Nat → Option (List Nat × List Nat))
    (email pk : String) (nonce : Option Nat) : Except String (List Nat) :=
  let nonceValue := nonce.getD 0
  let publicKeyHex : String :=
    if pk = "" then bytesToHex0x (keccak256 (strBytes (email ++ "_fallback_key")))
    else if startsWithL pk.data ['0', 'x'] then pk
    else decodedKeyHex pj pk
  match hexToBytes publicKeyHex with
  | none => .error "encodeAbiParameters: invalid bytes value"
  | some keyBytes =>
    .ok (keccak256 (abiEncStringBytesUint (strBytes email) keyBytes nonceValue))

/-! ## Smart accounts
(sources: the address-manager module (`getOrCreateSmartAccountAddress`)
and `lib/smart-account/factory.ts` `createSmartAccount`,
`generateInitCode`) -/

def FACTORY_ADDRESS : String := "0xB8D779eeEF173c6dBC3a28f0Dec73e48cBE6411C"

/-- The hardcoded address the address manager always returns. -/
def FIXED_ADDRESS : String := "0x9f0815a0b5ffb7e7178858cd62156487ba991414"

/-- `getOrCreateSmartAccountAddress(email, publicKey)` always returns
`FIXED_ADDRESS`; the surrounding localStorage bookkeeping never changes
the returned value. -/
def getOrCreateSmartAccountAddress (_email _publicKey : String) : String :=
  FIXED_ADDRESS

structure SmartAccountConfig where
  email : String
  publicKey : String
  chainId : Nat
deriving DecidableEq, Repr

structure SmartAccount where
  address : String
  publicKey : String
  email : String
  isDeployed : Bool
  nonce : Nat
deriving DecidableEq, Repr

/-- `createSmartAccount(config, accountIndex?)`.  `bytecodeRes` is the
outcome of `client.getBytecode` (`.ok none` models `undefined`) and
`nonceRes` the outcome of the entry point's `getNonce` read; both reads
sit in `try`/`catch` blocks whose handlers default to not-deployed and
nonce 0, so the function itself never fails.  `accountIndex` is accepted
and ignored, as in the source. -/
def createSmartAccount (config : SmartAccountConfig) (_accountIndex : Option Nat)
    (bytecodeRes : Except Unit (Option String)) (nonceRes : Except Unit Nat) :
    SmartAccount :=
  let address := getOrCreateSmartAccountAddress config.email config.publicKey
  let isDeployed := match bytecodeRes with
    | .ok (some code) => code != "0x" && code.length > 2
    | .ok none => false
    | .error _ => false
  let nonce := if isDeployed then (match nonceRes with | .ok n => n | .error _ => 0)
    else 0
  { address := address, publicKey := config.publicKey, email := config.email,
    isDeployed := isDeployed, nonce := nonce }

/-- First four bytes of `keccak256("createAccount(bytes,bytes32)")` —
the function selector `encodeFunctionData` prefixes. -/
def createAccountSelector : List Nat :=
  (keccak256 (strBytes "createAccount(bytes,bytes32)")).take 4

/-- `encodeAbiParameters` for `createAccount`'s `(bytes, bytes32)`
argument tuple. -/
def abiEncBytesBytes32 (bBytes salt : List Nat) : List Nat :=
  word32 64 ++ salt ++ word32 bBytes.length ++ padRight32 bBytes

/-- `generateInitCode(account)`: `'0x'` for a deployed account, else the
factory address concatenated with the `createAccount(publicKey, salt)`
calldata, where the salt comes from `calculateSalt(email, publicKey)`. -/
def generateInitCode (pj : List Nat → Option (List Nat × List Nat))
    (account : SmartAccount) : Except String String :=
  if account.isDeployed then .ok "0x"
  else
    match calculateSalt pj account.email account.publicKey none with
    | .error e => .error e
    | .ok salt =>
      let publicKeyHex :=
        if startsWithL account.publicKey.data ['0', 'x'] then account.publicKey
        else decodedKeyHex pj account.publicKey
      match hexToBytes publicKeyHex with
      | none => .error "encodeFunctionData: invalid bytes value"
      | some keyBytes =>
        .ok (FACTORY_ADDRESS ++
          hexJoinJS (createAccountSelector ++ abiEncBytesBytes32 keyBytes salt))

/-! ## Decimal strings (JavaScript `parseFloat` / `toFixed(6)` on the
well-formed decimal literals this pipeline passes around; the values in
scope are exact short decimals, modelled exactly) -/

/-- An exact decimal value `(-1)^neg * num / 10^scale`. -/
structure DecVal where
  neg : Bool
  num : Nat
  scale : Nat
deriving DecidableEq, Repr

/-- Decimal value of a digit run. -/
def digitsVal : List Char → Option Nat
  | [] => some 0
  | c :: cs =>
    if 48 ≤ c.toNat ∧ c.toNat ≤ 57 then
      (digitsVal cs).map (fun v => (c.toNat - 48) * 10 ^ cs.length + v)
    else none

/-- `parseFloat` on a plain decimal literal (optional sign, digits,
optional fractional part); `none` models `NaN`. -/
def parseFloatD (s : String) : Option DecVal :=
  let (neg, cs) := match s.data with
    | '-' :: rest => (true, rest)
    | rest => (false, rest)
  let ip := cs.takeWhile (fun c => c ≠ '.')
  let rest := cs.dropWhile (fun c => c ≠ '.')
  let fp := rest.drop 1
  if ip.isEmpty ∧ fp.isEmpty then none
  else if fp.any (fun c => c = '.') then none
  else
    match digitsVal ip, digitsVal fp with
    | some i, some f => some ⟨neg, i * 10 ^ fp.length + f, fp.length⟩
    | _, _ => none

/-- `a < b` on exact decimals (IEEE result for these magnitudes). -/
def decLt (a b : DecVal) : Bool :=
  match a.neg, b.neg with
  | false, false => a.num * 10 ^ b.scale < b.num * 10 ^ a.scale
  | true, true => b.num * 10 ^ a.scale < a.num * 10 ^ b.scale
  | true, false => ¬ (a.num = 0 ∧ b.num = 0)
  | false, true => false

/-- Multiply a decimal by `m / 1000` (the quote fee factors `0.995` and
`0.005`), exactly. -/
def mulPerMille (a : DecVal) (m : Nat) : DecVal :=
  { a with num := a.num * m, scale := a.scale + 3 }

/-- Pad a digit string on the left with zeros to width `w`. -/
def padLeftZeros (s : String) (w : Nat) : String :=
  String.mk (List.replicate (w - s.length) '0') ++ s

/-- JavaScript `x.toFixed(6)`: round `|x| * 10^6` to the nearest integer
(ties up) and print six decimals, with a `-` sign for negative `x`. -/
def formatFixed6 (a : DecVal) : String :=
  let n := (2 * a.num * 1000000 + 10 ^ a.scale) / (2 * 10 ^ a.scale)
  (if a.neg ∧ a.num ≠ 0 then "-" else "") ++
    Nat.repr (n / 1000000) ++ "." ++ padLeftZeros (Nat.repr (n % 1000000)) 6

/-! ## Bridge quotes
(sources: `RealCrossChainBridge.getRealBridgeQuote` and
`CrossChainBridge.getQuote` in `lib/bridge/cross-chain.ts`) -/

/-- One entry of the aggregator's quote response (`data.data[0]`). -/
structure OkxQuoteData where
  fromTokenAmount : String
  toTokenAmount : String
  bridgeId : String
  estimatedTime : Nat
  bridgeFee : String
deriving DecidableEq, Repr

structure RealBridgeQuote where
  fromAmount : String
  toAmount : String
  bridgeId : String
  estimatedTime : Nat
  fees : String
  route : String
deriving DecidableEq, Repr

/-- ASCII lowercasing of one character (`String.prototype.toLowerCase`
on the ASCII network ids in scope). -/
def toLowerCh (c : Char) : Char :=
  if 65 ≤ c.toNat ∧ c.toNat ≤ 90 then Char.ofNat (c.toNat + 32) else c

/-- `s.toLowerCase()`. -/
def strToLower (s : String) : String := String.mk (s.data.map toLowerCh)

/-- The network ids present in `NETWORKS` (`getChainId` accepts exactly
these after lowercasing). -/
def knownNetwork (n : String) : Bool := n == "sepolia" || n == "xlayer"

/-- The `(network, token)` pairs `getTokenAddress` resolves. -/
def knownToken (network token : String) : Bool :=
  (strToLower network == "sepolia" && (token == "ETH" || token == "OKB")) ||
    (strToLower network == "xlayer" && token == "OKB")

/-- The static-rate fallback quote built in `getRealBridgeQuote`'s catch
block: a 0.5% fee, a `fallback_`-prefixed bridge id and a route string
naming the fallback. -/
def fallbackQuote (now : Nat) (amount : String) : RealBridgeQuote :=
  { fromAmount := amount,
    toAmount := match parseFloatD amount with
      | some q => formatFixed6 (mulPerMille q 995)
      | none => "NaN",
    bridgeId := "fallback_" ++ Nat.repr now,
    estimatedTime := 300,
    fees := match parseFloatD amount with
      | some q => formatFixed6 (mulPerMille q 5)
      | none => "NaN",
    route := "Fallback estimation (OKX API unavailable)" }

/-- `getRealBridgeQuote`: everything up to and including the aggregator
fetch sits in one `try`; an unsupported network/token pair, an
unreachable aggregator, a non-OK response or a non-zero response code
(`fetchRes = .error`) all land in the catch, which returns the fallback
quote instead of throwing. -/
def getRealBridgeQuote (now : Nat) (fetchRes : Except Unit OkxQuoteData)
    (fromN toN fromT toT amount : String) : RealBridgeQuote :=
  if knownNetwork (strToLower fromN) && knownNetwork (strToLower toN) &&
      knownToken fromN fromT && knownToken toN toT then
    match fetchRes with
    | .ok q =>
      { fromAmount := q.fromTokenAmount, toAmount := q.toTokenAmount,
        bridgeId := q.bridgeId, estimatedTime := q.estimatedTime,
        fees := q.bridgeFee, route := "OKX Bridge (" ++ q.bridgeId ++ ")" }
    | .error _ => fallbackQuote now amount
  else fallbackQuote now amount

structure BridgeQuote where
  fromAmount : String
  toAmount : String
  /-- `parseFloat(toAmount) / parseFloat(fromAmount)`, kept as the exact
  numerator/denominator pair; `none` models a NaN or infinite result. -/
  rate : Option (DecVal × DecVal)
  fees : String
  estimatedTime : Nat
  route : String
deriving DecidableEq, Repr

/-- `CrossChainBridge.getQuote`.  Its own catch (the `BRIDGE_PAIRS`
static fallback) is unreachable, because `getRealBridgeQuote` returns
its fallback instead of throwing. -/
def getQuote (now : Nat) (fetchRes : Except Unit OkxQuoteData)
    (fromN toN fromT toT amount : String) : BridgeQuote :=
  let rq := getRealBridgeQuote now fetchRes fromN toN fromT toT amount
  { fromAmount := rq.fromAmount, toAmount := rq.toAmount,
    rate := match parseFloatD rq.toAmount, parseFloatD rq.fromAmount with
      | some t, some f => if f.num = 0 then none else some (t, f)
      | _, _ => none,
    fees := rq.fees, estimatedTime := rq.estimatedTime, route := rq.route }

/-! ## The bridge transaction state machine
(sources: `CrossChainBridge.executeBridge` / `executeBurnTransaction` /
`executeMintTransaction` in `lib/bridge/cross-chain.ts`, and
`RealCrossChainBridge.executeRealBridge` / `monitorBridgeTransaction`) -/

inductive BStatus
  | pending
  | processing
  | completed
  | failed
deriving DecidableEq, Repr

/-- The `BridgeTransaction` record of `lib/bridge/cross-chain.ts`. -/
structure BridgeTx where
  id : String
  fromNetwork : String
  toNetwork : String
  fromToken : String
  toToken : String
  amount : String
  recipient : String
  status : BStatus
  txHash : Option String
  timestamp : Nat
  estimatedTime : Option Nat
deriving DecidableEq, Repr

/-- The `RealBridgeTransaction` record of the real-bridge module
(`okxTxData` is omitted: it never influences control flow). -/
structure RealBridgeTx where
  id : String
  fromNetwork : String
  toNetwork : String
  fromToken : String
  toToken : String
  amount : String
  recipient : String
  status : BStatus
  txHash : Option String
  bridgeId : Option String
  timestamp : Nat
  estimatedTime : Option Nat
deriving DecidableEq, Repr

/-- An orchestrator registry, kept as the chronological log of
`transactions.set` calls; the current value of an id is its last
write. -/
abbrev Registry (α : Type) := List (String × α)

def regWrite (reg : Registry α) (id : String) (v : α) : Registry α := reg ++ [(id, v)]

def regGet (reg : Registry α) (id : String) : Option α :=
  ((reg.filter (fun p => p.1 == id)).getLast?).map (fun p => p.2)

/-- The chronological sequence of statuses written for one id. -/
def statusLog (f : α → BStatus) (reg : Registry α) (id : String) : List BStatus :=
  (reg.filter (fun p => p.1 == id)).map (fun p => f p.2)

/-- JavaScript `padEnd(w, '0')`. -/
def padEndZeros (s : String) (w : Nat) : String :=
  s ++ String.mk (List.replicate (w - s.length) '0')

def demoHash (now : Nat) : String := "0xdemo" ++ padEndZeros (natToHexStr now) 59
def bridgeEthHash (now : Nat) : String := "0xbridge_" ++ padEndZeros (natToHexStr now) 60
def failFallbackHash (now : Nat) : String := "0xfail_" ++ padEndZeros (natToHexStr now) 59
def mintSimHash (now : Nat) : String := "0xmint" ++ padEndZeros (natToHexStr now) 59

/-- `parseFloat(a) < parseFloat(b)` with IEEE NaN semantics: any NaN
operand makes the comparison false. -/
def nanLt (a b : Option DecVal) : Bool :=
  match a, b with
  | some x, some y => decLt x y
  | _, _ => false

/-- Outcomes of the external calls one `executeBridge` run makes. -/
structure SimOracles where
  now : Nat
  rand : String
  /-- converted result of `realCrossChainBridge.executeRealBridge`,
  attempted first for supported pairs -/
  realRes : Except Unit BridgeTx
  /-- `keyManager.getOrCreateUserWallet` succeeded -/
  walletOk : Bool
  /-- `getUserWalletAccess` returned a wallet -/
  walletAccess : Bool
  /-- `publicClient.getBalance`, already formatted by `formatEther` and
  parsed -/
  balance : Except Unit DecVal
  /-- `getStoredPasskey()` (the `publicKey` it must carry) -/
  passkey : Option String
  /-- `executeBurnToken` outcome: `.ok (some h)` success with hash,
  `.ok none` a failed result, `.error` a throw -/
  okbBurn : Except Unit (Option String)
  /-- `Date.now()` inside the delayed mint callback -/
  mintNow : Nat

/-- `executeBurnTransaction(networkId, token, amount, userEmail)`.  Only
the missing-wallet and unknown-network errors escape; every failure
inside the big `try` (balance fetch failure, insufficient balance) is
caught and replaced by a demo hash, and every failure of the real OKB
burn is caught by the inner handler and replaced by a `0xfail_` hash. -/
def executeBurnTransaction (o : SimOracles) (networkId token amount : String) :
    Except String String :=
  if ¬ o.walletAccess then .error "No wallet access for user"
  else if ¬ knownNetwork networkId then
    .error ("Network " ++ networkId ++ " not found")
  else
    match o.balance with
    | .error _ => .ok (demoHash o.now)
    | .ok bal =>
      if nanLt (some bal) (parseFloatD amount) then .ok (demoHash o.now)
      else if networkId == "sepolia" && token == "OKB" then
        match o.passkey with
        | none => .ok (failFallbackHash o.now)
        | some _ =>
          match o.okbBurn with
          | .ok (some h) => .ok h
          | .ok none => .ok (failFallbackHash o.now)
          | .error _ => .ok (failFallbackHash o.now)
      else .ok (bridgeEthHash o.now)

/-- The destination-side mint step scheduled by the timer.  Its `try`
body only builds a hash string, so the simulation never fails. -/
def executeMintTransaction (now : Nat) : String := mintSimHash now

/-- The arguments the 10-second `setTimeout` callback captures. -/
structure PendingMint where
  txId : String
  toNetwork : String
  toToken : String
  amount : String
  recipient : String
deriving DecidableEq, Repr

/-- The simulation branch of `executeBridge`: insert the `pending`
record, run the burn, move to `processing` and schedule the mint; on a
burn error mark the record `failed` and rethrow. -/
def executeBridgeSimPart (o : SimOracles)
    (fromN toN fromT toT amount recipient : String) (reg : Registry BridgeTx) :
    Except String BridgeTx × Registry BridgeTx × Option PendingMint :=
  let txId := "sim_bridge_" ++ Nat.repr o.now ++ "_" ++ o.rand
  let btx : BridgeTx :=
    { id := txId, fromNetwork := fromN, toNetwork := toN, fromToken := fromT,
      toToken := toT, amount := amount, recipient := recipient,
      status := .pending, txHash := none, timestamp := o.now,
      estimatedTime := some 120 }
  let reg1 := regWrite reg txId btx
  if ¬ o.walletOk then
    (.error "Failed to create user wallet",
      regWrite reg1 txId { btx with status := .failed }, none)
  else
    match executeBurnTransaction o fromN fromT amount with
    | .error e =>
      (.error e, regWrite reg1 txId { btx with status := .failed }, none)
    | .ok _burnHash =>
      let btx2 := { btx with status := .processing }
      (.ok btx2, regWrite reg1 txId btx2,
        some { txId := txId, toNetwork := toN, toToken := toT,
               amount := amount, recipient := recipient })

/-- `CrossChainBridge.executeBridge`: supported real pairs first try the
real bridge (whose registry is its own; only the returned record is
copied here) and fall through to the simulation on failure. -/
def executeBridge (o : SimOracles)
    (fromN toN fromT toT amount recipient : String) (reg : Registry BridgeTx) :
    Except String BridgeTx × Registry BridgeTx × Option PendingMint :=
  let isRealBridge := fromN == "sepolia" && toN == "xlayer" &&
    ((fromT == "ETH" && toT == "OKB") || (fromT == "OKB" && toT == "OKB"))
  if isRealBridge then
    match o.realRes with
    | .ok rtx => (.ok rtx, regWrite reg rtx.id rtx, none)
    | .error _ => executeBridgeSimPart o fromN toN fromT toT amount recipient reg
  else executeBridgeSimPart o fromN toN fromT toT amount recipient reg

/-- The delayed mint callback.  `executeMintTransaction` is total, so
the callback's catch (which would set `failed`) is unreachable; the
callback marks the captured transaction `completed`. -/
def runMintTimer (pm : PendingMint) (mintNow : Nat) (reg : Registry BridgeTx) :
    Registry BridgeTx :=
  match regGet reg pm.txId with
  | none => reg
  | some tx =>
    regWrite reg pm.txId
      { tx with status := .completed, txHash := some (executeMintTransaction mintNow) }

/-- One complete simulated bridge lifetime: the `executeBridge` call
followed by its delayed mint callback, when one was scheduled. -/
def simBridgeFull (o : SimOracles)
    (fromN toN fromT toT amount recipient : String) (reg : Registry BridgeTx) :
    Registry BridgeTx :=
  match executeBridge o fromN toN fromT toT amount recipient reg with
  | (_, reg1, none) => reg1
  | (_, reg1, some pm) => runMintTimer pm o.mintNow reg1

/-- Outcomes of the external calls one `executeRealBridge` run makes. -/
structure RealOracles where
  now : Nat
  rand : String
  /-- the aggregator fetch inside `getRealBridgeQuote` -/
  quoteFetch : Except Unit OkxQuoteData
  /-- `okxAPI.buildBridgeTx` succeeded -/
  buildOk : Bool
  /-- `executeSmartAccountTransaction` outcome (submitted tx hash) -/
  execRes : Except Unit String

/-- `RealCrossChainBridge.executeRealBridge`: create the `pending`
record, quote (never throws), build and submit; on success move to
`processing` and hand a monitor handle back, on any throw mark the
record `failed` and rethrow. -/
def executeRealBridge (o : RealOracles)
    (fromN toN fromT toT amount recipient : String)
    (reg : Registry RealBridgeTx) :
    Except String RealBridgeTx × Registry RealBridgeTx × Option String :=
  let txId := "real_bridge_" ++ Nat.repr o.now ++ "_" ++ o.rand
  let btx : RealBridgeTx :=
    { id := txId, fromNetwork := fromN, toNetwork := toN, fromToken := fromT,
      toToken := toT, amount := amount, recipient := recipient,
      status := .pending, txHash := none, bridgeId := none, timestamp := o.now,
      estimatedTime := some 300 }
  let reg1 := regWrite reg txId btx
  let quote := getRealBridgeQuote o.now o.quoteFetch fromN toN fromT toT amount
  let btx1 := { btx with
    bridgeId := some quote.bridgeId,
    estimatedTime := some quote.estimatedTime }
  if ¬ (knownNetwork (strToLower fromN) && knownNetwork (strToLower toN) &&
        knownToken fromN fromT && knownToken toN toT) then
    (.error ("Unsupported network or token"),
      regWrite reg1 txId { btx1 with status := .failed }, none)
  else if ¬ o.buildOk then
    (.error "buildBridgeTx failed",
      regWrite reg1 txId { btx1 with status := .failed }, none)
  else
    match o.execRes with
    | .error _ =>
      (.error "Transaction failed",
        regWrite reg1 txId { btx1 with status := .failed }, none)
    | .ok h =>
      let btx2 := { btx1 with status := .processing, txHash := some h }
      (.ok btx2, regWrite reg1 txId btx2, some txId)

/-- `monitorBridgeTransaction`'s `checkStatus` loop.  `stream k` is the
`k`-th `okxAPI.getBridgeStatus` outcome (`.error` a throw, retried
later); a terminal status is written once and stops the rescheduling; a
non-terminal status rewrites the unchanged record and reschedules.
`fuel` bounds how many checks we observe of the otherwise unbounded
rescheduling. -/
def runMonitor (stream : Nat → Except Unit String) (txId : String) :
    Nat → Nat → Registry RealBridgeTx → Registry RealBridgeTx
  | 0, _, reg => reg
  | fuel + 1, k, reg =>
    match regGet reg txId with
    | none => reg
    | some tx =>
      match stream k with
      | .error _ => runMonitor stream txId fuel (k + 1) reg
      | .ok s =>
        if s == "completed" then regWrite reg txId { tx with status := .completed }
        else if s == "failed" then regWrite reg txId { tx with status := .failed }
        else runMonitor stream txId fuel (k + 1) (regWrite reg txId tx)

/-- One complete real-bridge lifetime: the `executeRealBridge` call
followed by any number of monitor checks. -/
def realBridgeFull (o : RealOracles)
    (fromN toN fromT toT amount recipient : String)
    (stream : Nat → Except Unit String) (fuel : Nat)
    (reg : Registry RealBridgeTx) : Registry RealBridgeTx :=
  match executeRealBridge o fromN toN fromT toT amount recipient reg with
  | (_, reg1, none) => reg1
  | (_, reg1, some txId) => runMonitor stream txId fuel 0 reg1

/-- A status is terminal. -/
def isFinal : BStatus → Bool
  | .completed => true
  | .failed => true
  | _ => false

/-- Monotonicity of a chronological status sequence: every terminal
entry is followed only by itself. -/
def monoFinalB : List BStatus → Bool
  | [] => true
  | s :: rest => (!isFinal s || rest.all (fun x => x == s)) && monoFinalB rest

/-! ## Substring matching (JavaScript `String.prototype.includes`) -/

/-- `hay.includes(needle)` on character lists. -/
def includesL [BEq α] (needle : List α) : List α → Bool
  | [] => needle.isEmpty
  | c :: rest => startsWithL (c :: rest) needle || includesL needle rest

/-- JavaScript's case-sensitive `hay.includes(needle)`. -/
def strContains (hay needle : String) : Bool := includesL needle.data hay.data

/-! ## Paymaster sponsorship
(source: `lib/gasless/paymaster.ts`, `PaymasterClient.sponsorUserOperation`) -/

/-- The fields of a successful `pm_sponsorUserOperation` response after
the client's BigInt conversions (`paymasterAndData` decoded to bytes). -/
structure SponsorRaw where
  paymasterAndData : List Nat
  preVerificationGas : Nat
  verificationGasLimit : Nat
  callGasLimit : Nat
deriving DecidableEq, Repr

/-- `sponsorUserOperation`: a successful RPC result passes through; a
thrown error message is pattern-matched into one of three user-facing
messages or a generic `Sponsorship failed:` wrapper. -/
def sponsorUserOperation (rpcRes : Except String SponsorRaw) :
    Except String SponsorRaw :=
  match rpcRes with
  | .ok r => .ok r
  | .error m =>
    if strContains m "insufficient deposit" then
      .error "Paymaster has insufficient funds. Please contact support."
    else if strContains m "policy not found" then
      .error "Invalid sponsorship policy. Please check configuration."
    else if strContains m "user operation not eligible" then
      .error "This operation is not eligible for sponsorship."
    else .error ("Sponsorship failed: " ++ m)

/-! ## The gasless execution pipeline
(source: `lib/gasless` — `executeGaslessOperation`, lines 17-98) -/

/-- `bundler.estimateUserOperationGas` result. -/
structure GasEstimate where
  preVerificationGas : Nat
  verificationGasLimit : Nat
  callGasLimit : Nat
  maxFeePerGas : Nat
  maxPriorityFeePerGas : Nat
deriving DecidableEq, Repr

def ENTRYPOINT_ADDRESS : Nat := 0x5FF137D4b0FDCD49DcA30c7CF57E578a026d2789

/-- `xlayer.id`, the chain id the operation hash is bound to (the chain
definition module exporting it is not under the pipeline sources; the
X Layer id recorded in the repository's type definitions is 196). -/
def XLAYER_CHAIN_ID : Nat := 196

/-- The outer catch of `executeGaslessOperation`, mapping raw error
messages to user-facing ones.  Note the `insufficient funds` test runs
before the `paymaster` test. -/
def gaslessCatch (m : String) : String :=
  if strContains m "insufficient funds" then
    "Your smart account needs funding. Please add some ETH for deployment."
  else if strContains m "already deployed" then
    "Smart account already deployed. Retrying without init code..."
  else if strContains m "paymaster" then
    "Gas sponsorship failed. The transaction will require gas fees."
  else m

instance [DecidableEq ε] [DecidableEq α] : DecidableEq (Except ε α)
  | .error e, .error f =>
    if h : e = f then .isTrue (congrArg Except.error h)
    else .isFalse (fun hh => h (Except.error.inj hh))
  | .error _, .ok _ => .isFalse (fun hh => Except.noConfusion hh)
  | .ok _, .error _ => .isFalse (fun hh => Except.noConfusion hh)
  | .ok a, .ok b =>
    if h : a = b then .isTrue (congrArg Except.ok h)
    else .isFalse (fun hh => h (Except.ok.inj hh))

/-- What one `executeGaslessOperation` run produced: its result and
whether `bundler.sendUserOperation` was ever attempted. -/
structure ExecOutcome where
  result : Except String String
  bundlerCalled : Bool
deriving DecidableEq, Repr

/-- The `try` body of `executeGaslessOperation`: estimate, build the
complete operation, sponsor, hash, confirm and sign with the passkey
(inner catch renaming a cancellation), then submit to the bundler. -/
def gaslessTryBody
    (estimateRes : Except String GasEstimate)
    (sponsorRpc : Except String SponsorRaw)
    (verifyRes : Except String Unit)
    (signRes : Except String (List Nat))
    (sendRes : Except String String)
    (op : UserOperation) : Except String String × Bool :=
  match estimateRes with
  | .error m => (.error m, false)
  | .ok g =>
    let completeUserOp : UserOperation :=
      { sender := op.sender, nonce := op.nonce, initCode := op.initCode,
        callData := op.callData, callGasLimit := g.callGasLimit,
        verificationGasLimit := g.verificationGasLimit,
        preVerificationGas := g.preVerificationGas,
        maxFeePerGas := g.maxFeePerGas,
        maxPriorityFeePerGas := g.maxPriorityFeePerGas,
        paymasterAndData := [], signature := [] }
    match sponsorUserOperation sponsorRpc with
    | .error m => (.error m, false)
    | .ok sp =>
      let opSponsored := { completeUserOp with
        paymasterAndData := sp.paymasterAndData,
        preVerificationGas := sp.preVerificationGas,
        verificationGasLimit := sp.verificationGasLimit,
        callGasLimit := sp.callGasLimit }
      let _userOpHash := getUserOpHash opSponsored ENTRYPOINT_ADDRESS XLAYER_CHAIN_ID
      match verifyRes with
      | .error m =>
        (.error (if strContains m "cancelled" then "Transaction cancelled by user" else m),
          false)
      | .ok _ =>
        match signRes with
        | .error m =>
          (.error (if strContains m "cancelled" then "Transaction cancelled by user" else m),
            false)
        | .ok sig =>
          let _signedOp := { opSponsored with signature := sig }
          match sendRes with
          | .error m => (.error m, true)
          | .ok h => (.ok h, true)

/-- `executeGaslessOperation`: the `try` body with the outer catch
applied to whatever error escapes it. -/
def executeGaslessOperation
    (estimateRes : Except String GasEstimate)
    (sponsorRpc : Except String SponsorRaw)
    (verifyRes : Except String Unit)
    (signRes : Except String (List Nat))
    (sendRes : Except String String)
    (op : UserOperation) : ExecOutcome :=
  match gaslessTryBody estimateRes sponsorRpc verifyRes signRes sendRes op with
  | (.ok h, called) => { result := .ok h, bundlerCalled := called }
  | (.error m, called) => { result := .error (gaslessCatch m), bundlerCalled := called }

/-! ## Receipt polling
(source: `BundlerClient.waitForUserOperationReceipt`, lines 189-204) -/

inductive WaitResult (α : Type)
  | received (r : α) (t polls : Nat)
  | timedOut (t polls : Nat)
deriving DecidableEq, Repr

/-- The polling loop: while the elapsed time is below the timeout, fetch
the receipt (`recv n` is the `n`-th `getUserOperationReceipt` outcome,
`none` meaning no receipt yet) and otherwise sleep 2000 ms; past the
deadline throw the timeout error.  Receipt fetches are modelled as
instantaneous, sleeps as exactly 2000 ms, so `t` is the elapsed time at
each loop head. -/
def waitLoop (recv : Nat → Option α) (timeout n t : Nat) : WaitResult α :=
  if t < timeout then
    match recv n with
    | some r => .received r t n
    | none => waitLoop recv timeout (n + 1) (t + 2000)
  else .timedOut t n
termination_by timeout - t
decreasing_by simp_wf; omega

/-- `waitForUserOperationReceipt(hash, timeout)`. -/
def waitForUserOperationReceipt (recv : Nat → Option α) (timeout : Nat) :
    WaitResult α :=
  waitLoop recv timeout 0 0

/-- The number of poll iterations a run with no receipt performs:
`⌈timeout / 2000⌉`. -/
def pollCount (timeout : Nat) : Nat := (timeout + 1999) / 2000

/-- A concrete stand-in for the `JSON.parse` oracle on paths that never
reach the JSON branch. -/
def jsonParseNone : List Nat → Option (List Nat × List Nat) := fun _ => none

/-- A bundler that never returns a receipt. -/
def noReceipt : Nat → Option Unit := fun _ => none

/-- Concrete oracle values: a simulation-path bridge run whose user has
balance 0.5 on the source chain. -/
def lowBalanceOracles : SimOracles :=
  { now := 0, rand := "abc", realRes := .error (), walletOk := true,
    walletAccess := true, balance := .ok ⟨false, 5, 1⟩, passkey := none,
    okbBurn := .error (), mintNow := 0 }

/-- Concrete oracle values for one simulated bridge lifetime. -/
def simLifeOracles : SimOracles :=
  { now := 0, rand := "xyz", realRes := .error (), walletOk := true,
    walletAccess := true, balance := .ok ⟨false, 20, 1⟩, passkey := none,
    okbBurn := .error (), mintNow := 10 }

/-- Concrete oracle values for one real bridge lifetime. -/
def realLifeOracles : RealOracles :=
  { now := 0, rand := "xyz", quoteFetch := .error (), buildOk := true,
    execRes := .ok "0xsubmitted" }

/-- A status endpoint that keeps answering `pending`, then `completed`. -/
def statusStream : Nat → Except Unit String := fun k =>
  if k = 0 then .ok "pending" else .ok "completed"

/-- A deployed account, for witness instantiation. -/
def acctDeployed : SmartAccount :=
  { address := FIXED_ADDRESS, publicKey := "0x0102", email := "alice@example.com",
    isDeployed := true, nonce := 7 }

/-- An undeployed account, for witness instantiation. -/
def acctUndeployed : SmartAccount :=
  { address := FIXED_ADDRESS, publicKey := "0x0102", email := "alice@example.com",
    isDeployed := false, nonce := 0 }

/-- The same identity as `acctUndeployed` under a different cached
address and nonce. -/
def acctUndeployed2 : SmartAccount :=
  { address := "0x0000000000000000000000000000000000000001",
    publicKey := "0x0102", email := "alice@example.com",
    isDeployed := false, nonce := 3 }

/-! ## Helper lemmas -/

lemma hexDigitVal_hexDigit {m : Nat} (h : m < 16) : hexDigitVal (hexDigit m) = some m := by
  interval_cases m <;> rfl

lemma natToHexCharsGo_lt16 (fuel : Nat) {n : Nat} (h : n < 16) :
    natToHexCharsGo (fuel + 1) n = [hexDigit n] := by
  rw [natToHexCharsGo, if_pos h]

lemma natToHexChars_lt16 {b : Nat} (h : b < 16) : natToHexChars b = [hexDigit b] :=
  natToHexCharsGo_lt16 b h

lemma byteHexChars_eq {b : Nat} (h : b < 256) :
    byteHexChars b = [hexDigit (b / 16), hexDigit (b % 16)] := by
  by_cases h16 : b < 16
  · have hd : b / 16 = 0 := Nat.div_eq_of_lt h16
    have hm : b % 16 = b := Nat.mod_eq_of_lt h16
    simp [byteHexChars, natToHexChars_lt16 h16, hd, hm, hexDigit]
  · have hdiv : b / 16 < 16 := by omega
    obtain ⟨m, rfl⟩ : ∃ m, b = m + 1 := ⟨b - 1, by omega⟩
    have hch : natToHexChars (m + 1) = [hexDigit ((m + 1) / 16), hexDigit ((m + 1) % 16)] := by
      unfold natToHexChars
      rw [natToHexCharsGo, if_neg h16, natToHexCharsGo_lt16 m hdiv]
      rfl
    simp [byteHexChars, hch]

lemma hexPairs_byteHexChars {b : Nat} (h : b < 256) (rest : List Char) :
    hexPairs (byteHexChars b ++ rest) = (hexPairs rest).map (fun bs => b :: bs) := by
  rw [byteHexChars_eq h]
  have h1 : b / 16 < 16 := by omega
  have h2 : b % 16 < 16 := Nat.mod_lt _ (by norm_num)
  have hbb : 16 * (b / 16) + b % 16 = b := by omega
  simp only [List.cons_append, List.nil_append]
  rw [hexPairs, hexDigitVal_hexDigit h1, hexDigitVal_hexDigit h2]
  cases h3 : hexPairs rest <;> simp [hbb]

lemma hexPairs_hexCharsJS {bs : List Nat} (h : ∀ b ∈ bs, b < 256) :
    hexPairs (hexCharsJS bs) = some bs := by
  induction bs with
  | nil => rfl
  | cons b rest ih =>
    have hb : b < 256 := h b (List.mem_cons_self _ _)
    have hrest : ∀ x ∈ rest, x < 256 := fun x hx => h x (List.mem_cons_of_mem _ hx)
    simp only [hexCharsJS, List.map_cons, List.flatten_cons]
    rw [hexPairs_byteHexChars hb]
    have h4 : hexPairs (hexCharsJS rest) = some rest := ih hrest
    simp only [hexCharsJS] at h4
    rw [h4]
    rfl

lemma hexToBytes_bytesToHex0x {bs : List Nat} (h : ∀ b ∈ bs, b < 256) :
    hexToBytes (bytesToHex0x bs) = some bs := by
  show hexPairs (hexCharsJS bs) = some bs
  exact hexPairs_hexCharsJS h

lemma keccak256_byte_lt (msg : List Nat) : ∀ b ∈ keccak256 msg, b < 256 := by
  intro b hb
  unfold keccak256 at hb
  simp only [List.mem_flatten, List.mem_map] at hb
  obtain ⟨l, ⟨n, _, rfl⟩, hbl⟩ := hb
  simp only [laneBytes, List.mem_map] at hbl
  obtain ⟨k, _, rfl⟩ := hbl
  exact Nat.mod_lt _ (by norm_num)


lemma regGet_regWrite_eq (reg : Registry α) (id : String) (v : α) :
    regGet (regWrite reg id v) id = some v := by
  simp [regGet, regWrite, List.filter_append, List.getLast?_concat]

lemma statusLog_regWrite (f : α → BStatus) (reg : Registry α) (id : String) (v : α)
    (id' : String) :
    statusLog f (regWrite reg id v) id' =
      statusLog f reg id' ++ (if id = id' then [f v] else []) := by
  by_cases hid : id = id' <;>
    simp [statusLog, regWrite, List.filter_append, hid]

lemma monoFinalB_singleton (s : BStatus) : monoFinalB [s] = true := by
  cases s <;> rfl

lemma monoFinalB_of_nonfinal {l : List BStatus} (h : ∀ s ∈ l, isFinal s = false) :
    monoFinalB l = true := by
  induction l with
  | nil => rfl
  | cons s rest ih =>
    have hs : isFinal s = false := h s (List.mem_cons_self _ _)
    simp [monoFinalB, hs, ih (fun x hx => h x (List.mem_cons_of_mem _ hx))]

lemma monoFinalB_nonfinal_concat {l : List BStatus} (x : BStatus)
    (h : ∀ s ∈ l, isFinal s = false) : monoFinalB (l ++ [x]) = true := by
  induction l with
  | nil => simpa using monoFinalB_singleton x
  | cons s rest ih =>
    have hs : isFinal s = false := h s (List.mem_cons_self _ _)
    simp [monoFinalB, hs, ih (fun y hy => h y (List.mem_cons_of_mem _ hy))]

lemma runMonitor_mono (stream : Nat → Except Unit String) (id0 : String) :
    ∀ fuel k reg tx, regGet reg id0 = some tx → tx.status = .processing →
    (∀ s ∈ statusLog (fun t : RealBridgeTx => t.status) reg id0, isFinal s = false) →
    monoFinalB (statusLog (fun t : RealBridgeTx => t.status)
      (runMonitor stream id0 fuel k reg) id0) = true := by
  intro fuel
  induction fuel with
  | zero =>
    intro k reg tx _ _ hlog
    exact monoFinalB_of_nonfinal hlog
  | succ n ih =>
    intro k reg tx hget hst hlog
    unfold runMonitor
    rw [hget]
    dsimp only
    cases hs : stream k with
    | error e => exact ih (k + 1) reg tx hget hst hlog
    | ok s =>
      dsimp only
      by_cases hc : (s == "completed") = true
      · rw [if_pos hc, statusLog_regWrite, if_pos rfl]
        exact monoFinalB_nonfinal_concat _ hlog
      · rw [if_neg hc]
        by_cases hf : (s == "failed") = true
        · rw [if_pos hf, statusLog_regWrite, if_pos rfl]
          exact monoFinalB_nonfinal_concat _ hlog
        · rw [if_neg hf]
          refine ih (k + 1) (regWrite reg id0 tx) tx (regGet_regWrite_eq _ _ _) hst ?_
          rw [statusLog_regWrite, if_pos rfl]
          intro s2 hs2
          rcases List.mem_append.mp hs2 with h1 | h2
          · exact hlog s2 h1
          · have : s2 = tx.status := by simpa using h2
            rw [this, hst]
            rfl


lemma statusLog_runMonitor_other (stream : Nat → Except Unit String) (id0 id' : String)
    (h : ¬ id0 = id') : ∀ fuel k reg,
    statusLog (fun t : RealBridgeTx => t.status) (runMonitor stream id0 fuel k reg) id' =
      statusLog (fun t : RealBridgeTx => t.status) reg id' := by
  intro fuel
  induction fuel with
  | zero => intro k reg; rfl
  | succ n ih =>
    intro k reg
    unfold runMonitor
    cases hget : regGet reg id0 with
    | none => rfl
    | some tx =>
      dsimp only
      cases hs : stream k with
      | error e => exact ih (k + 1) reg
      | ok s =>
        dsimp only
        by_cases hc : (s == "completed") = true
        · rw [if_pos hc, statusLog_regWrite, if_neg h, List.append_nil]
        · rw [if_neg hc]
          by_cases hf : (s == "failed") = true
          · rw [if_pos hf, statusLog_regWrite, if_neg h, List.append_nil]
          · rw [if_neg hf, ih (k + 1) (regWrite reg id0 tx),
              statusLog_regWrite, if_neg h, List.append_nil]

lemma two_writes_mono {f : α → BStatus} {init : Registry α} {txId id0 : String}
    {v1 v2 : α} (hfresh : statusLog f init txId = [])
    (h2 : isFinal (f v1) = false) :
    monoFinalB (statusLog f (regWrite (regWrite init id0 v1) id0 v2) txId) = true := by
  rw [statusLog_regWrite, statusLog_regWrite, hfresh]
  by_cases hid : id0 = txId
  · rw [if_pos hid, if_pos hid]
    simp [monoFinalB, h2]
  · rw [if_neg hid, if_neg hid]
    rfl

lemma simPart_mono (o : SimOracles) (fN tN fT tT am rc : String)
    (init : Registry BridgeTx) (txId : String)
    (hfresh : statusLog (fun tx : BridgeTx => tx.status) init txId = []) :
    monoFinalB (statusLog (fun tx : BridgeTx => tx.status)
      (match executeBridgeSimPart o fN tN fT tT am rc init with
       | (_, reg1, none) => reg1
       | (_, reg1, some pm) => runMintTimer pm o.mintNow reg1) txId) = true := by
  unfold executeBridgeSimPart
  dsimp only
  split
  · rename_i x fst reg1 heq
    split at heq
    · simp only [Prod.mk.injEq] at heq
      rw [← heq.2.1]
      exact two_writes_mono hfresh rfl
    · split at heq
      · simp only [Prod.mk.injEq] at heq
        rw [← heq.2.1]
        exact two_writes_mono hfresh rfl
      · simp only [Prod.mk.injEq] at heq
        exact absurd heq.2.2 (by simp)
  · rename_i x fst reg1 pm heq
    split at heq
    · simp only [Prod.mk.injEq] at heq
      exact absurd heq.2.2 (by simp)
    · split at heq
      · simp only [Prod.mk.injEq] at heq
        exact absurd heq.2.2 (by simp)
      · simp only [Prod.mk.injEq] at heq
        obtain ⟨h1, h2, h3⟩ := heq
        rw [← h2]
        have hpm : pm.txId = "sim_bridge_" ++ Nat.repr o.now ++ "_" ++ o.rand := by
          rw [← Option.some.inj h3]

        unfold runMintTimer
        rw [hpm, regGet_regWrite_eq]
        dsimp only
        rw [statusLog_regWrite, statusLog_regWrite, statusLog_regWrite, hfresh]
        by_cases hid : ("sim_bridge_" ++ Nat.repr o.now ++ "_" ++ o.rand) = txId
        · rw [if_pos hid, if_pos hid, if_pos hid]
          rfl
        · rw [if_neg hid, if_neg hid, if_neg hid]
          rfl


lemma nonfinal_pp {s : BStatus}
    (hs : s ∈ [BStatus.pending, BStatus.processing]) : isFinal s = false := by
  rcases List.mem_cons.mp hs with rfl | h
  · rfl
  · rcases List.mem_cons.mp h with rfl | h2
    · rfl
    · cases h2

lemma realPart_mono (o : RealOracles) (fN tN fT tT am rc : String)
    (stream : Nat → Except Unit String) (fuel : Nat)
    (init : Registry RealBridgeTx) (txId : String)
    (hfresh : statusLog (fun t : RealBridgeTx => t.status) init txId = []) :
    monoFinalB (statusLog (fun t : RealBridgeTx => t.status)
      (realBridgeFull o fN tN fT tT am rc stream fuel init) txId) = true := by
  unfold realBridgeFull executeRealBridge
  dsimp only
  by_cases hsupp : (knownNetwork (strToLower fN) && knownNetwork (strToLower tN) &&
      knownToken fN fT && knownToken tN tT) = true
  · rw [if_neg (not_not_intro hsupp)]
    by_cases hbuild : o.buildOk = true
    · rw [if_neg (not_not_intro hbuild)]
      cases hex : o.execRes with
      | error e =>
        dsimp only
        exact two_writes_mono hfresh rfl
      | ok h =>
        dsimp only
        by_cases hid : ("real_bridge_" ++ Nat.repr o.now ++ "_" ++ o.rand) = txId
        · subst hid
          apply runMonitor_mono _ _ fuel 0 _ _ (regGet_regWrite_eq _ _ _) rfl
          rw [statusLog_regWrite, statusLog_regWrite, hfresh, if_pos rfl, if_pos rfl]
          intro s hs
          apply nonfinal_pp
          simpa using hs
        · rw [statusLog_runMonitor_other _ _ _ hid, statusLog_regWrite,
            statusLog_regWrite, hfresh, if_neg hid, if_neg hid]
          rfl
    · rw [if_pos hbuild]
      dsimp only
      exact two_writes_mono hfresh rfl
  · rw [if_pos hsupp]
    dsimp only
    exact two_writes_mono hfresh rfl

/-- C4: for every `BridgeTransaction` held in an orchestrator registry,
status transitions are monotonic: once a status write is `completed` or
`failed`, no subsequent step of any operation — the delayed mint
callback of the simulation path, the status monitor of the real path,
or an execute error path — writes any other status for that
transaction.  Stated over one complete simulated bridge lifetime and
one complete real bridge lifetime, for every oracle outcome and every
transaction id fresh in the initial registry. -/
theorem bridgeTx_status_monotone :
    (∀ (o : SimOracles) (fN tN fT tT am rc : String)
        (init : Registry BridgeTx) (txId : String),
        statusLog (fun tx : BridgeTx => tx.status) init txId = [] →
        monoFinalB (statusLog (fun tx : BridgeTx => tx.status)
          (simBridgeFull o fN tN fT tT am rc init) txId) = true) ∧
    (∀ (o : RealOracles) (fN tN fT tT am rc : String)
        (stream : Nat → Except Unit String) (fuel : Nat)
        (init : Registry RealBridgeTx) (txId : String),
        statusLog (fun tx : RealBridgeTx => tx.status) init txId = [] →
        monoFinalB (statusLog (fun tx : RealBridgeTx => tx.status)
          (realBridgeFull o fN tN fT tT am rc stream fuel init) txId) = true) := by
  constructor
  · intro o fN tN fT tT am rc init txId hfresh
    unfold simBridgeFull executeBridge
    dsimp only
    by_cases hreal : (fN == "sepolia" && tN == "xlayer" &&
        ((fT == "ETH" && tT == "OKB") || (fT == "OKB" && tT == "OKB"))) = true
    · rw [if_pos hreal]
      cases hr : o.realRes with
      | ok rtx =>
        dsimp only
        rw [statusLog_regWrite, hfresh]
        by_cases hid : rtx.id = txId
        · rw [if_pos hid]
          simp only [List.nil_append]
          exact monoFinalB_singleton _
        · rw [if_neg hid]
          rfl
      | error e =>
        dsimp only
        exact simPart_mono o fN tN fT tT am rc init txId hfresh
    · rw [if_neg hreal]
      exact simPart_mono o fN tN fT tT am rc init txId hfresh
  · intro o fN tN fT tT am rc stream fuel init txId hfresh
    exact realPart_mono o fN tN fT tT am rc stream fuel init txId hfresh


lemma waitLoop_none {α : Type} (recv : Nat → Option α) (timeout : Nat)
    (hnone : ∀ m, recv m = none) :
    ∀ d n t, timeout ≤ t + 2000 * d →
    waitLoop recv timeout n t =
      .timedOut (t + 2000 * ((timeout - t + 1999) / 2000))
        (n + (timeout - t + 1999) / 2000) := by
  intro d
  induction d with
  | zero =>
    intro n t h
    rw [waitLoop, if_neg (by omega)]
    have hz : (timeout - t + 1999) / 2000 = 0 := by omega
    rw [hz]
    simp
  | succ m ih =>
    intro n t h
    by_cases hlt : t < timeout
    · rw [waitLoop, if_pos hlt, hnone n]
      rw [ih (n + 1) (t + 2000) (by omega)]
      have e1 : t + 2000 + 2000 * ((timeout - (t + 2000) + 1999) / 2000) =
          t + 2000 * ((timeout - t + 1999) / 2000) := by omega
      have e2 : n + 1 + (timeout - (t + 2000) + 1999) / 2000 =
          n + (timeout - t + 1999) / 2000 := by omega
      rw [e1, e2]
    · rw [waitLoop, if_neg hlt]
      have hz : (timeout - t + 1999) / 2000 = 0 := by omega
      rw [hz]
      simp

lemma waitLoop_received {α : Type} (recv : Nat → Option α) (timeout : Nat) :
    ∀ d n t r t' n', timeout ≤ t + 2000 * d →
    waitLoop recv timeout n t = .received r t' n' →
    recv n' = some r ∧ t' < timeout ∧ t' + 2000 * n = t + 2000 * n' := by
  intro d
  induction d with
  | zero =>
    intro n t r t' n' h heq
    rw [waitLoop, if_neg (by omega)] at heq
    exact absurd heq (by simp)
  | succ m ih =>
    intro n t r t' n' h heq
    by_cases hlt : t < timeout
    · rw [waitLoop, if_pos hlt] at heq
      cases hr : recv n with
      | some r0 =>
        rw [hr] at heq
        cases heq
        exact ⟨hr, hlt, by omega⟩
      | none =>
        rw [hr] at heq
        obtain ⟨a, b, c⟩ := ih (n + 1) (t + 2000) r t' n' (by omega) heq
        exact ⟨a, b, by omega⟩
    · rw [waitLoop, if_neg hlt] at heq
      exact absurd heq (by simp)

/-- C8: `waitForUserOperationReceipt` polls at a fixed 2000 ms interval;
against a bundler that never returns a receipt it terminates with the
distinguishable timeout outcome after `⌈timeout / 2000⌉` polls, at an
elapsed time that reaches the timeout but exceeds it by less than one
interval; it returns earlier exactly when a poll yields a receipt, and
(being a total function) it never hangs. -/
theorem receiptPolling_bounded_and_faithful {α : Type} (recv : Nat → Option α) (timeout : Nat) :
    ((∀ m, recv m = none) →
      waitForUserOperationReceipt recv timeout =
        WaitResult.timedOut (2000 * pollCount timeout) (pollCount timeout) ∧
      timeout ≤ 2000 * pollCount timeout ∧
      2000 * pollCount timeout < timeout + 2000) ∧
    (∀ (r : α) (t n : Nat),
      waitForUserOperationReceipt recv timeout = WaitResult.received r t n →
      recv n = some r ∧ t = 2000 * n ∧ t < timeout) := by
  constructor
  · intro hnone
    have h := waitLoop_none recv timeout hnone timeout 0 0 (by omega)
    refine ⟨?_, by unfold pollCount; omega, by unfold pollCount; omega⟩
    rw [waitForUserOperationReceipt, h]
    congr 1 <;> unfold pollCount <;> omega
  · intro r t n heq
    obtain ⟨a, b, c⟩ :=
      waitLoop_received recv timeout timeout 0 0 r t n (by omega)
        (by rw [← waitForUserOperationReceipt]; exact heq)
    exact ⟨a, by omega, b⟩


/-- C3 (amended): on the simulation path of `executeBridge`, a requested
amount strictly greater than the source-chain balance does NOT fail:
the insufficient-balance throw inside `executeBurnTransaction` is caught
by its demo-mode handler, which substitutes a demo hash; the run
succeeds, the transaction record stays in the registry with status
`processing`, and the delayed mint is scheduled. -/
theorem executeBridge_sim_insufficient_balance
    (o : SimOracles) (fN tN fT tT amount rc : String) (reg : Registry BridgeTx)
    (bal amt : DecVal)
    (hw : o.walletOk = true) (ha : o.walletAccess = true)
    (hb : o.balance = .ok bal) (hp : parseFloatD amount = some amt)
    (hlt : decLt bal amt = true) (hn : knownNetwork fN = true) :
    (executeBridgeSimPart o fN tN fT tT amount rc reg).1 =
      .ok { id := "sim_bridge_" ++ Nat.repr o.now ++ "_" ++ o.rand,
            fromNetwork := fN, toNetwork := tN, fromToken := fT, toToken := tT,
            amount := amount, recipient := rc, status := .processing,
            txHash := none, timestamp := o.now, estimatedTime := some 120 } ∧
    regGet (executeBridgeSimPart o fN tN fT tT amount rc reg).2.1
        ("sim_bridge_" ++ Nat.repr o.now ++ "_" ++ o.rand) =
      some { id := "sim_bridge_" ++ Nat.repr o.now ++ "_" ++ o.rand,
             fromNetwork := fN, toNetwork := tN, fromToken := fT, toToken := tT,
             amount := amount, recipient := rc, status := .processing,
             txHash := none, timestamp := o.now, estimatedTime := some 120 } ∧
    (executeBridgeSimPart o fN tN fT tT amount rc reg).2.2 =
      some { txId := "sim_bridge_" ++ Nat.repr o.now ++ "_" ++ o.rand,
             toNetwork := tN, toToken := tT, amount := amount, recipient := rc } := by
  have hburn : executeBurnTransaction o fN fT amount = .ok (demoHash o.now) := by
    unfold executeBurnTransaction
    rw [ha, hb, hp, hn]
    simp [nanLt, hlt]
  unfold executeBridgeSimPart
  rw [hw, hburn]
  simp only [Bool.not_true, if_neg (by simp : ¬ (False : Prop))]
  exact ⟨rfl, regGet_regWrite_eq _ _ _, rfl⟩


/-- C5 (amended): `calculateSalt` never raises an `InvalidPublicKey`
error: an empty public key is silently replaced by the deterministic
fallback key `keccak256(toHex(email + '_fallback_key'))`, and an
undecodable key (base64 decode failure) is silently replaced by
`keccak256(toHex(publicKey))`; in both cases a salt is returned. -/
theorem calculateSalt_silent_fallbacks
    (pj : List Nat → Option (List Nat × List Nat)) (email pk : String)
    (nonce : Option Nat) :
    (pk = "" →
      calculateSalt pj email pk nonce =
        .ok (keccak256 (abiEncStringBytesUint (strBytes email)
          (keccak256 (strBytes (email ++ "_fallback_key"))) (nonce.getD 0)))) ∧
    (¬ pk = "" → startsWithL pk.data ['0', 'x'] = false → atob pk = none →
      calculateSalt pj email pk nonce =
        .ok (keccak256 (abiEncStringBytesUint (strBytes email)
          (keccak256 (strBytes pk)) (nonce.getD 0)))) := by
  constructor
  · intro he
    subst he
    unfold calculateSalt
    rw [if_pos rfl]
    dsimp only
    rw [hexToBytes_bytesToHex0x (keccak256_byte_lt _)]
  · intro hne hsw hat
    unfold calculateSalt
    dsimp only
    rw [if_neg hne, hsw]
    simp only [Bool.false_eq_true, if_false]
    unfold decodedKeyHex
    rw [hat]
    dsimp only
    rw [hexToBytes_bytesToHex0x (keccak256_byte_lt _)]

/-- C6 (amended): when the paymaster sponsorship call fails with an
insufficient-funds error, `executeGaslessOperation` never attempts the
bundler submission, but the error it surfaces is the generic
account-funding message produced by the outer catch (whose
`insufficient funds` test fires before its `paymaster` test), not the
paymaster-specific error. -/
theorem gasless_paymaster_insufficient_remapped
    (g : GasEstimate) (m : String) (v : Except String Unit)
    (s : Except String (List Nat)) (snd : Except String String)
    (op : UserOperation)
    (hm : strContains m "insufficient deposit" = true) :
    executeGaslessOperation (.ok g) (.error m) v s snd op =
      { result := .error "Your smart account needs funding. Please add some ETH for deployment.",
        bundlerCalled := false } := by
  have hsp : sponsorUserOperation (.error m) =
      .error "Paymaster has insufficient funds. Please contact support." := by
    unfold sponsorUserOperation
    dsimp only
    rw [if_pos hm]
  unfold executeGaslessOperation gaslessTryBody
  rw [hsp]
  dsimp only
  have hc : gaslessCatch "Paymaster has insufficient funds. Please contact support." =
      "Your smart account needs funding. Please add some ETH for deployment." := by decide
  rw [hc]

/-- C7: on the pair (sepolia, xlayer, ETH, OKB) with the aggregator
unreachable, `getQuote` returns the fallback quote: `toAmount` is the
input amount times 0.995 (rendered with `toFixed(6)`, so `"1.0"` gives
`"0.995000"`), the fee is the amount times 0.005, and the route string
marks the result as a fallback rather than a live quote. -/
theorem getQuote_unreachable_aggregator_fallback
    (now : Nat) (amount : String) (q : DecVal)
    (hp : parseFloatD amount = some q) :
    (getQuote now (.error ()) "sepolia" "xlayer" "ETH" "OKB" amount).toAmount =
      formatFixed6 (mulPerMille q 995) ∧
    (getQuote now (.error ()) "sepolia" "xlayer" "ETH" "OKB" amount).fees =
      formatFixed6 (mulPerMille q 5) ∧
    (getQuote now (.error ()) "sepolia" "xlayer" "ETH" "OKB" amount).route =
      "Fallback estimation (OKX API unavailable)" ∧
    (getQuote now (.error ()) "sepolia" "xlayer" "ETH" "OKB" amount).fromAmount =
      amount := by
  have hcond : (knownNetwork (strToLower "sepolia") && knownNetwork (strToLower "xlayer") &&
      knownToken "sepolia" "ETH" && knownToken "xlayer" "OKB") = true := by decide
  unfold getQuote getRealBridgeQuote
  rw [if_pos hcond]
  dsimp only
  unfold fallbackQuote
  rw [hp]
  exact ⟨rfl, rfl, rfl, rfl⟩

/-- C9: `generateInitCode` is a pure deterministic function of the
account's fields: every deployed account yields the empty byte string
`'0x'`; for undeployed accounts the result depends only on the email
and public key (so two calls for the same identity are byte-identical),
and it is the factory address followed by the encoded
`createAccount(publicKey, salt)` calldata with the salt from
`calculateSalt(email, publicKey)`. -/
theorem generateInitCode_pure_and_structured
    (pj : List Nat → Option (List Nat × List Nat)) (a b : SmartAccount) :
    (a.isDeployed = true → generateInitCode pj a = .ok "0x") ∧
    (a.isDeployed = false → b.isDeployed = false → a.email = b.email →
      a.publicKey = b.publicKey → generateInitCode pj a = generateInitCode pj b) ∧
    (a.isDeployed = false →
      generateInitCode pj a =
        match calculateSalt pj a.email a.publicKey none with
        | .error e => .error e
        | .ok salt =>
          match hexToBytes (if startsWithL a.publicKey.data ['0', 'x'] then a.publicKey
              else decodedKeyHex pj a.publicKey) with
          | none => .error "encodeFunctionData: invalid bytes value"
          | some keyBytes =>
            .ok (FACTORY_ADDRESS ++
              hexJoinJS (createAccountSelector ++ abiEncBytesBytes32 keyBytes salt))) := by
  refine ⟨?_, ?_, ?_⟩
  · intro hd
    unfold generateInitCode
    rw [if_pos hd]
  · intro hd1 hd2 he hpk
    unfold generateInitCode
    rw [hd1, hd2, he, hpk]
  · intro hd
    unfold generateInitCode
    rw [hd]
    rfl



/-- C1: `getUserOpHash` ABI-encodes sender, nonce, keccak256(initCode),
keccak256(callData), the five gas/fee fields and
keccak256(paymasterAndData) into the ten-slot static tuple, then
keccak256-hashes the packed triple of the tuple's keccak256 hash, the
entry-point address and the chain id; the signature field never enters
the computation, so two operations differing only in signature have
equal hashes. -/
theorem userOpHash_structure_and_signature_independence
    (op : UserOperation) (sig : List Nat) (entryPoint chainId : Nat) :
    getUserOpHash { op with signature := sig } entryPoint chainId =
      getUserOpHash op entryPoint chainId ∧
    getUserOpHash op entryPoint chainId =
      keccak256 (encodePacked
        [.b32 (keccak256 (packUserOp op)), .addr entryPoint, .uint chainId]) ∧
    packUserOp op =
      abiEncodeStatic
        [.addr op.sender, .uint op.nonce, .b32 (keccak256 op.initCode),
         .b32 (keccak256 op.callData), .uint op.callGasLimit,
         .uint op.verificationGasLimit, .uint op.preVerificationGas,
         .uint op.maxFeePerGas, .uint op.maxPriorityFeePerGas,
         .b32 (keccak256 op.paymasterAndData)] :=
  ⟨rfl, rfl, rfl⟩

/-- C2 (counterexample): two configurations with the same email but
different public keys receive the SAME smart-account address from
`createSmartAccount` — the address manager returns a hardcoded
constant — refuting the claim that changing the public key yields a
different derived address. -/
theorem smartAccount_different_keys_same_address_cx :
    (createSmartAccount ⟨"alice@example.com", "0x01", 11155111⟩ none
        (.error ()) (.error ())).address =
      (createSmartAccount ⟨"alice@example.com", "0x02", 11155111⟩ none
        (.error ()) (.error ())).address ∧
    ¬ ("0x01" : String) = "0x02" :=
  ⟨rfl, by decide⟩

/-- C2 (amended): `createSmartAccount` derives its address through
`getOrCreateSmartAccountAddress`, which returns the fixed constant
`0x9f0815a0b5ffb7e7178858cd62156487ba991414` for every email and public
key, so the address never varies with the public key. -/
theorem smartAccount_address_is_fixed_constant
    (c1 c2 : SmartAccountConfig) (i1 i2 : Option Nat)
    (b1 b2 : Except Unit (Option String)) (n1 n2 : Except Unit Nat) :
    (createSmartAccount c1 i1 b1 n1).address = FIXED_ADDRESS ∧
    (createSmartAccount c1 i1 b1 n1).address =
      (createSmartAccount c2 i2 b2 n2).address :=
  ⟨rfl, rfl⟩

/-- C3 (counterexample): with source-chain balance 0.5 and requested
amount 1.0 on the simulation path, `executeBridge` does not fail — it
returns the transaction with status `processing`, and the record is in
the registry — refuting the claim that it fails with an
insufficient-balance error and leaves no pending record. -/
theorem executeBridge_insufficient_balance_cx :
    executeBridge lowBalanceOracles "sepolia" "xlayer" "ETH" "ETH" "1.0" "0xrec" [] =
      (Except.ok
        { id := "sim_bridge_0_abc", fromNetwork := "sepolia", toNetwork := "xlayer",
          fromToken := "ETH", toToken := "ETH", amount := "1.0", recipient := "0xrec",
          status := .processing, txHash := none, timestamp := 0,
          estimatedTime := some 120 },
       [("sim_bridge_0_abc",
          { id := "sim_bridge_0_abc", fromNetwork := "sepolia", toNetwork := "xlayer",
            fromToken := "ETH", toToken := "ETH", amount := "1.0", recipient := "0xrec",
            status := .pending, txHash := none, timestamp := 0,
            estimatedTime := some 120 }),
        ("sim_bridge_0_abc",
          { id := "sim_bridge_0_abc", fromNetwork := "sepolia", toNetwork := "xlayer",
            fromToken := "ETH", toToken := "ETH", amount := "1.0", recipient := "0xrec",
            status := .processing, txHash := none, timestamp := 0,
            estimatedTime := some 120 })],
       some { txId := "sim_bridge_0_abc", toNetwork := "xlayer", toToken := "ETH",
              amount := "1.0", recipient := "0xrec" }) ∧
    decLt ⟨false, 5, 1⟩ ⟨false, 10, 1⟩ = true := by
  exact ⟨by decide, by decide⟩

/-- C3 (witness): the amended theorem applied at balance 0.5 and amount
1.0 on the simulation path. -/
theorem executeBridge_sim_insufficient_balance_witness :
    (executeBridgeSimPart lowBalanceOracles "sepolia" "xlayer" "ETH" "ETH" "1.0" "0xrec" []).1 =
      .ok { id := "sim_bridge_" ++ Nat.repr lowBalanceOracles.now ++ "_" ++ lowBalanceOracles.rand,
            fromNetwork := "sepolia", toNetwork := "xlayer", fromToken := "ETH",
            toToken := "ETH", amount := "1.0", recipient := "0xrec",
            status := .processing, txHash := none, timestamp := lowBalanceOracles.now,
            estimatedTime := some 120 } ∧
    regGet (executeBridgeSimPart lowBalanceOracles "sepolia" "xlayer" "ETH" "ETH" "1.0" "0xrec" []).2.1
        ("sim_bridge_" ++ Nat.repr lowBalanceOracles.now ++ "_" ++ lowBalanceOracles.rand) =
      some { id := "sim_bridge_" ++ Nat.repr lowBalanceOracles.now ++ "_" ++ lowBalanceOracles.rand,
             fromNetwork := "sepolia", toNetwork := "xlayer", fromToken := "ETH",
             toToken := "ETH", amount := "1.0", recipient := "0xrec",
             status := .processing, txHash := none, timestamp := lowBalanceOracles.now,
             estimatedTime := some 120 } ∧
    (executeBridgeSimPart lowBalanceOracles "sepolia" "xlayer" "ETH" "ETH" "1.0" "0xrec" []).2.2 =
      some { txId := "sim_bridge_" ++ Nat.repr lowBalanceOracles.now ++ "_" ++ lowBalanceOracles.rand,
             toNetwork := "xlayer", toToken := "ETH", amount := "1.0",
             recipient := "0xrec" } :=
  executeBridge_sim_insufficient_balance lowBalanceOracles "sepolia" "xlayer" "ETH" "ETH"
    "1.0" "0xrec" [] ⟨false, 5, 1⟩ ⟨false, 10, 1⟩ rfl rfl rfl (by decide) (by decide)
    (by decide)

/-- C4 (witness): the monotonicity theorem applied to one concrete
simulated lifetime and one concrete real lifetime started on empty
registries. -/
theorem bridgeTx_status_monotone_witness :
    monoFinalB (statusLog (fun tx : BridgeTx => tx.status)
      (simBridgeFull simLifeOracles "sepolia" "xlayer" "ETH" "ETH" "1.0" "0xrec" [])
      "sim_bridge_0_xyz") = true ∧
    monoFinalB (statusLog (fun tx : RealBridgeTx => tx.status)
      (realBridgeFull realLifeOracles "sepolia" "xlayer" "ETH" "OKB" "1.0" "0xrec"
        statusStream 5 []) "real_bridge_0_xyz") = true :=
  ⟨bridgeTx_status_monotone.1 simLifeOracles "sepolia" "xlayer" "ETH" "ETH" "1.0" "0xrec"
      [] "sim_bridge_0_xyz" rfl,
   bridgeTx_status_monotone.2 realLifeOracles "sepolia" "xlayer" "ETH" "OKB" "1.0" "0xrec"
      statusStream 5 [] "real_bridge_0_xyz" rfl⟩

/-- C5 (counterexample): the empty public key — a malformed input — does
not make `calculateSalt` fail with `InvalidPublicKey`: it silently
substitutes the deterministic fallback key derived from the email and
returns a salt. -/
theorem calculateSalt_empty_key_cx :
    calculateSalt jsonParseNone "alice@example.com" "" none =
      .ok (keccak256 (abiEncStringBytesUint (strBytes "alice@example.com")
        (keccak256 (strBytes ("alice@example.com" ++ "_fallback_key"))) 0)) := by
  decide

/-- C5 (witness): the amended theorem applied to the empty key and to an
undecodable key. -/
theorem calculateSalt_silent_fallbacks_witness :
    calculateSalt jsonParseNone "alice@example.com" "" (some 0) =
      .ok (keccak256 (abiEncStringBytesUint (strBytes "alice@example.com")
        (keccak256 (strBytes ("alice@example.com" ++ "_fallback_key")))
        ((some 0 : Option Nat).getD 0))) ∧
    calculateSalt jsonParseNone "alice@example.com" "!!!" (some 0) =
      .ok (keccak256 (abiEncStringBytesUint (strBytes "alice@example.com")
        (keccak256 (strBytes "!!!")) ((some 0 : Option Nat).getD 0))) :=
  ⟨(calculateSalt_silent_fallbacks jsonParseNone "alice@example.com" "" (some 0)).1 rfl,
   (calculateSalt_silent_fallbacks jsonParseNone "alice@example.com" "!!!" (some 0)).2
      (by decide) (by decide) (by decide)⟩

/-- C6 (counterexample): with the paymaster failing on insufficient
deposit, `executeGaslessOperation` surfaces the generic account-funding
message — not the paymaster-specific error — refuting the claim that
the specific paymaster error type reaches the caller (the bundler is
indeed never called). -/
theorem gasless_paymaster_error_remapped_cx :
    executeGaslessOperation (.ok ⟨0, 0, 0, 0, 0⟩)
      (.error "Paymaster RPC Error: insufficient deposit") (.ok ()) (.ok [])
      (.ok "0xh") ⟨0, 0, [], [], 0, 0, 0, 0, 0, [], []⟩ =
      { result := .error "Your smart account needs funding. Please add some ETH for deployment.",
        bundlerCalled := false } ∧
    ¬ ("Your smart account needs funding. Please add some ETH for deployment." =
        "Paymaster has insufficient funds. Please contact support.") := by
  exact ⟨by decide, by decide⟩

/-- C6 (witness): the amended theorem applied to a concrete run. -/
theorem gasless_paymaster_insufficient_remapped_witness :
    executeGaslessOperation (.ok ⟨1, 2, 3, 4, 5⟩)
      (.error "Paymaster RPC Error: insufficient deposit for operation")
      (.error "verify failed") (.ok []) (.error "send failed")
      ⟨7, 1, [], [1], 0, 0, 0, 0, 0, [], []⟩ =
      { result := .error "Your smart account needs funding. Please add some ETH for deployment.",
        bundlerCalled := false } :=
  gasless_paymaster_insufficient_remapped ⟨1, 2, 3, 4, 5⟩
    "Paymaster RPC Error: insufficient deposit for operation" (.error "verify failed")
    (.ok []) (.error "send failed") ⟨7, 1, [], [1], 0, 0, 0, 0, 0, [], []⟩ (by decide)

/-- C7 (witness): the fallback-quote theorem at amount `"1.0"`, whose
`toAmount` evaluates to `"0.995000"` and fee to `"0.005000"`. -/
theorem getQuote_unreachable_aggregator_fallback_witness :
    (getQuote 0 (.error ()) "sepolia" "xlayer" "ETH" "OKB" "1.0").toAmount = "0.995000" ∧
    (getQuote 0 (.error ()) "sepolia" "xlayer" "ETH" "OKB" "1.0").fees = "0.005000" ∧
    (getQuote 0 (.error ()) "sepolia" "xlayer" "ETH" "OKB" "1.0").route =
      "Fallback estimation (OKX API unavailable)" ∧
    (getQuote 0 (.error ()) "sepolia" "xlayer" "ETH" "OKB" "1.0").fromAmount = "1.0" := by
  have h := getQuote_unreachable_aggregator_fallback 0 "1.0" ⟨false, 10, 1⟩ (by decide)
  exact ⟨h.1.trans (by decide), h.2.1.trans (by decide), h.2.2.1, h.2.2.2⟩

/-- C8 (witness): the polling theorem against a bundler that never
returns a receipt, with a 5000 ms timeout: the loop times out after
`pollCount 5000 = 3` polls at 6000 ms. -/
theorem receiptPolling_bounded_and_faithful_witness :
    waitForUserOperationReceipt noReceipt 5000 =
      WaitResult.timedOut (2000 * pollCount 5000) (pollCount 5000) ∧
    5000 ≤ 2000 * pollCount 5000 ∧
    2000 * pollCount 5000 < 5000 + 2000 ∧
    pollCount 5000 = 3 := by
  have h := (receiptPolling_bounded_and_faithful noReceipt 5000).1 (fun _ => rfl)
  exact ⟨h.1, h.2.1, h.2.2, by decide⟩

/-- C9 (witness): the initCode theorem at a deployed account and at two
undeployed records of the same identity. -/
theorem generateInitCode_pure_and_structured_witness :
    generateInitCode jsonParseNone acctDeployed = .ok "0x" ∧
    generateInitCode jsonParseNone acctUndeployed =
      generateInitCode jsonParseNone acctUndeployed2 ∧
    generateInitCode jsonParseNone acctUndeployed =
      (match calculateSalt jsonParseNone acctUndeployed.email acctUndeployed.publicKey none with
       | .error e => .error e
       | .ok salt =>
         match hexToBytes (if startsWithL acctUndeployed.publicKey.data ['0', 'x'] then
             acctUndeployed.publicKey else decodedKeyHex jsonParseNone acctUndeployed.publicKey) with
         | none => .error "encodeFunctionData: invalid bytes value"
         | some keyBytes =>
           .ok (FACTORY_ADDRESS ++
             hexJoinJS (createAccountSelector ++ abiEncBytesBytes32 keyBytes salt))) :=
  ⟨(generateInitCode_pure_and_structured jsonParseNone acctDeployed acctDeployed).1 rfl,
   (generateInitCode_pure_and_structured jsonParseNone acctUndeployed acctUndeployed2).2.1
      rfl rfl rfl rfl,
   (generateInitCode_pure_and_structured jsonParseNone acctUndeployed acctUndeployed).2.2 rfl⟩

/-- C10: `createSmartAccount` never propagates a chain-read failure: a
failed bytecode lookup yields `isDeployed = false` and nonce 0, a failed
`getNonce` read yields nonce 0, and the returned address does not depend
on either chain read. -/
theorem createSmartAccount_chain_read_defaults
    (config : SmartAccountConfig) (i : Option Nat)
    (b b2 : Except Unit (Option String)) (n n2 : Except Unit Nat) :
    ((createSmartAccount config i (.error ()) n).isDeployed = false ∧
     (createSmartAccount config i (.error ()) n).nonce = 0) ∧
    (createSmartAccount config i b (.error ())).nonce = 0 ∧
    (createSmartAccount config i b n).address =
      (createSmartAccount config i b2 n2).address := by
  refine ⟨⟨rfl, rfl⟩, ?_, rfl⟩
  unfold createSmartAccount
  dsimp only
  split <;> rfl

end OneClick
